import Mathlib

/-!
Shallow embedding of `palette_burndown.py` (PaletteProject/plots).

The script fetches project items from a paginated GraphQL endpoint
(`fetch_project_items`), normalizes each item's dynamic field values
(`process_items`), buckets closed items by closure date
(`calculate_by_date`), and computes ideal/actual burndown trajectories
(`generate_burndown_chart`).

Modelling choices:
- Python values flowing through the field mapping are modelled by `PyVal`
  (None, a string, or a number); Python numbers are modelled by `ℚ`
  (the script only adds, subtracts, multiplies and divides, so exact
  rational arithmetic mirrors the algorithm; no claim here is about
  floating-point rounding).
- Python `dict`s are modelled by association lists with last-write-wins
  insertion (`dictSet`) and first-match lookup (`dictGet`), matching
  Python's unique-key dictionaries.
- Calendar dates are modelled by their proleptic-Gregorian day ordinal
  (`Int`), computed by `civilToDays` (the standard days-from-civil
  algorithm); Python `date` equality and `timedelta` day arithmetic
  correspond exactly to ordinal equality and `Int` addition.
- `datetime.strptime(s, "%Y-%m-%dT%H:%M:%SZ").date()` is modelled by
  `parseTimestampDate`, which follows CPython's `_strptime` regex
  fragments for %Y, %m, %d, %H, %M, %S — compiled with `re.IGNORECASE`
  (lowercase `t`/`z` literals match) and with `\d` accepting Unicode
  decimal digits while bracketed classes stay ASCII — plus the
  `datetime` constructor's range validation, truncating to the date
  ordinal.  `float(str)` is modelled by `parsePyFloat` including the
  decimal-digit/space transform and underscore separators; `inf`/`nan`
  are outside `ℚ` and unmodelled.
- Exceptions are modelled by `Except`.  In `fetch_project_items` the
  three raise sites (GraphQL errors / missing data key / project not
  found) are the spec taxonomy's ProtocolError / SchemaError /
  NotFoundError; in `calculate_by_date` the `strptime` ValueError is the
  taxonomy's FormatError, and a `float(value)` conversion ValueError is
  kept separate as `convError`.
- Network transport and matplotlib rendering are side effects outside the
  embedding: the endpoint is a function from the pagination cursor to a
  parsed response, and `generate_burndown_chart` returns the date range
  and both trajectories (the data the chart plots) instead of drawing.
-/

/-- A Python value as it can appear in the normalized fields mapping:
`None`, a string, or a number (int/float, modelled as `ℚ`). -/
inductive PyVal where
  | none
  | str (s : String)
  | num (q : ℚ)
deriving DecidableEq

/-- Python truthiness for `PyVal`: `None`, `""` and `0` are falsy. -/
def pyTruthy : PyVal → Bool
  | PyVal.none => false
  | PyVal.str s => s ≠ ""
  | PyVal.num q => q ≠ 0

/-- Python truthiness of an optional string (`None` and `""` are falsy). -/
def optStrTruthy : Option String → Bool
  | Option.none => false
  | Option.some s => s ≠ ""

/-- Python `a or b` restricted to the values produced by
`field.get("text") or field.get("number")`. -/
def pyOr (a b : PyVal) : PyVal :=
  if pyTruthy a then a else b

/-- `field.get("text")` as a `PyVal` (missing key gives `None`). -/
def optStrVal : Option String → PyVal
  | Option.none => PyVal.none
  | Option.some s => PyVal.str s

/-- `field.get("number")` as a `PyVal` (missing key gives `None`). -/
def optNumVal : Option ℚ → PyVal
  | Option.none => PyVal.none
  | Option.some q => PyVal.num q

/-- First-match lookup in an association list: Python `d.get(k)`
(`none` when the key is absent). -/
def dictGet {α β : Type} [DecidableEq α] : List (α × β) → α → Option β
  | [], _ => Option.none
  | (k, v) :: rest, k' => if k' = k then Option.some v else dictGet rest k'

/-- Python `d[k] = v`: overwrite the existing entry in place, else append. -/
def dictSet {α β : Type} [DecidableEq α] : List (α × β) → α → β → List (α × β)
  | [], k, v => [(k, v)]
  | (k0, v0) :: rest, k, v =>
    if k = k0 then (k, v) :: rest else (k0, v0) :: dictSet rest k v

/-- The `field` metadata object of a field-value entry, as returned by the
GraphQL query: either the empty object `{}` (the `ProjectV2FieldCommon`
fragment did not match — falsy in Python) or `{"name": s}`. -/
inductive FieldMeta where
  | emptyDict
  | withName (name : String)
deriving DecidableEq

/-- One entry of `item["fieldValues"]["nodes"]`: an optional `field`
metadata object, an optional `text` and an optional `number`. -/
structure RawFieldValue where
  field : Option FieldMeta
  text : Option String
  number : Option ℚ
deriving DecidableEq

/-- `item["content"]`: the Issue fragment's fields, each possibly absent
(the fragment may not match, leaving `{}`). -/
structure RawContent where
  title : Option String
  state : Option String
  closedAt : Option String
deriving DecidableEq

/-- A raw project item node as consumed by `process_items`. -/
structure RawItem where
  fieldValues : List RawFieldValue
  content : RawContent
deriving DecidableEq

/-- A normalized record produced by `process_items`. -/
structure ProcItem where
  title : String
  state : String
  closed_at : Option String
  fields : List (String × PyVal)
deriving DecidableEq

/-- The body of the inner `for field in item["fieldValues"]["nodes"]` loop:
skip the entry when the metadata is missing or falsy (`None` or `{}`),
otherwise bind the field's name to `field.get("text") or
field.get("number")`. -/
def fieldStep (fields : List (String × PyVal)) (fv : RawFieldValue) :
    List (String × PyVal) :=
  match fv.field with
  | Option.none => fields
  | Option.some FieldMeta.emptyDict => fields
  | Option.some (FieldMeta.withName n) =>
      dictSet fields n (pyOr (optStrVal fv.text) (optNumVal fv.number))

/-- Normalization of one raw item (one iteration of the outer loop of
`process_items`). -/
def processOne (item : RawItem) : ProcItem :=
  { title := item.content.title.getD "No Title"
    state := item.content.state.getD "Unknown"
    closed_at := item.content.closedAt
    fields := item.fieldValues.foldl fieldStep [] }

/-- The accumulator loop of `process_items`
(`processed_items.append(...)` for each item). -/
def processItemsLoop : List RawItem → List ProcItem → List ProcItem
  | [], acc => acc
  | it :: rest, acc => processItemsLoop rest (acc ++ [processOne it])

/-- `process_items(items, milestone_name)`.  The `milestone_name`
parameter appears in the Python signature but is never used in the body. -/
def process_items (items : List RawItem) (milestone_name : String) :
    List ProcItem :=
  processItemsLoop items []

/-- Numeric value of an ASCII digit character (used for the regex
fragments' explicit `[0-9]`-style classes and digit literals, which match
ASCII only). -/
def digitVal (c : Char) : Nat := c.toNat - 48

/-- Base code points of the decades of Unicode category Nd (decimal
digits): each base starts ten consecutive code points with digit values
0-9.  This is the set matched by `\d` in a CPython `str` regex and
accepted by `int()` and the `float()` digit transform. -/
def ndDigitBases : List Nat :=
  [48, 1632, 1776, 1984, 2406, 2534, 2662, 2790, 2918, 3046, 3174, 3302,
   3430, 3558, 3664, 3792, 3872, 4160, 4240, 6112, 6160, 6470, 6608, 6784,
   6800, 6992, 7088, 7232, 7248, 42528, 43216, 43264, 43472, 43504, 43600,
   44016, 65296, 66720, 68912, 69734, 69872, 69942, 70096, 70384, 70736,
   70864, 71248, 71360, 71472, 71904, 72016, 72784, 73040, 73120, 92768,
   92864, 93008, 120782, 120792, 120802, 120812, 120822, 123200, 123632,
   125264, 130032]

/-- Decimal value of a Unicode Nd digit (`\d` in a CPython regex),
`none` for any other character. -/
def pyDigitVal (c : Char) : Option Nat :=
  match ndDigitBases.find? (fun b => b ≤ c.toNat && c.toNat < b + 10) with
  | Option.some b => Option.some (c.toNat - b)
  | Option.none => Option.none

/-- Code points for which Python `str.isspace()` holds (the set the
`float()` transform maps to an ASCII space). -/
def pySpaceCodes : List Nat :=
  [9, 10, 11, 12, 13, 28, 29, 30, 31, 32, 133, 160, 5760, 8192, 8193,
   8194, 8195, 8196, 8197, 8198, 8199, 8200, 8201, 8202, 8232, 8233,
   8239, 8287, 12288]

/-- Python `str.isspace()` on one character. -/
def isPyUnicodeSpace (c : Char) : Bool := pySpaceCodes.contains c.toNat

/-- Match `%Y`: CPython regex `\d\d\d\d` — four Unicode decimal digits
(`int()` gives each its decimal value regardless of script). -/
def parseYear4 : List Char → Option (Nat × List Char)
  | a :: b :: c :: d :: rest =>
      match pyDigitVal a, pyDigitVal b, pyDigitVal c, pyDigitVal d with
      | Option.some va, Option.some vb, Option.some vc, Option.some vd =>
          Option.some (1000 * va + 100 * vb + 10 * vc + vd, rest)
      | _, _, _, _ => Option.none
  | _ => Option.none

/-- Match `%m`: CPython regex alternation `1[0-2]|0[1-9]|[1-9]`, first
alternative wins (backtracking to a shorter alternative can never rescue a
failed overall match here because the following literal is not a digit). -/
def parseMonth : List Char → Option (Nat × List Char)
  | [] => Option.none
  | c1 :: rest1 =>
    match rest1 with
    | c2 :: rest2 =>
        if c1 = '1' && ('0' ≤ c2 && c2 ≤ '2') then
          Option.some (10 + digitVal c2, rest2)
        else if c1 = '0' && ('1' ≤ c2 && c2 ≤ '9') then
          Option.some (digitVal c2, rest2)
        else if '1' ≤ c1 && c1 ≤ '9' then Option.some (digitVal c1, rest1)
        else Option.none
    | [] =>
        if '1' ≤ c1 && c1 ≤ '9' then Option.some (digitVal c1, [])
        else Option.none

/-- Match `%d`: CPython regex `3[01]|[12]\d|0[1-9]|[1-9]` — the bracketed
classes and digit literals are ASCII, the lone `\d` accepts any Unicode
decimal digit. -/
def parseDay : List Char → Option (Nat × List Char)
  | [] => Option.none
  | c1 :: rest1 =>
    match rest1 with
    | c2 :: rest2 =>
        if c1 = '3' && ('0' ≤ c2 && c2 ≤ '1') then
          Option.some (30 + digitVal c2, rest2)
        else if ('1' ≤ c1 && c1 ≤ '2') && (pyDigitVal c2).isSome then
          Option.some (10 * digitVal c1 + (pyDigitVal c2).getD 0, rest2)
        else if c1 = '0' && ('1' ≤ c2 && c2 ≤ '9') then
          Option.some (digitVal c2, rest2)
        else if '1' ≤ c1 && c1 ≤ '9' then Option.some (digitVal c1, rest1)
        else Option.none
    | [] =>
        if '1' ≤ c1 && c1 ≤ '9' then Option.some (digitVal c1, [])
        else Option.none

/-- Match `%H`: CPython regex `2[0-3]|[0-1]\d|\d` — classes ASCII, each
`\d` any Unicode decimal digit. -/
def parseHour : List Char → Option (Nat × List Char)
  | [] => Option.none
  | c1 :: rest1 =>
    match rest1 with
    | c2 :: rest2 =>
        if c1 = '2' && ('0' ≤ c2 && c2 ≤ '3') then
          Option.some (20 + digitVal c2, rest2)
        else if ('0' ≤ c1 && c1 ≤ '1') && (pyDigitVal c2).isSome then
          Option.some (10 * digitVal c1 + (pyDigitVal c2).getD 0, rest2)
        else
          match pyDigitVal c1 with
          | Option.some v => Option.some (v, rest1)
          | Option.none => Option.none
    | [] =>
        match pyDigitVal c1 with
        | Option.some v => Option.some (v, [])
        | Option.none => Option.none

/-- Match `%M`: CPython regex `[0-5]\d|\d` — class ASCII, each `\d` any
Unicode decimal digit. -/
def parseMinute : List Char → Option (Nat × List Char)
  | [] => Option.none
  | c1 :: rest1 =>
    match rest1 with
    | c2 :: rest2 =>
        if ('0' ≤ c1 && c1 ≤ '5') && (pyDigitVal c2).isSome then
          Option.some (10 * digitVal c1 + (pyDigitVal c2).getD 0, rest2)
        else
          match pyDigitVal c1 with
          | Option.some v => Option.some (v, rest1)
          | Option.none => Option.none
    | [] =>
        match pyDigitVal c1 with
        | Option.some v => Option.some (v, [])
        | Option.none => Option.none

/-- Match `%S`: CPython regex `6[0-1]|[0-5]\d|\d` (leap seconds are matched
by the regex; the `datetime` constructor rejects them afterwards) —
classes and literals ASCII, each `\d` any Unicode decimal digit. -/
def parseSecond : List Char → Option (Nat × List Char)
  | [] => Option.none
  | c1 :: rest1 =>
    match rest1 with
    | c2 :: rest2 =>
        if c1 = '6' && ('0' ≤ c2 && c2 ≤ '1') then
          Option.some (60 + digitVal c2, rest2)
        else if ('0' ≤ c1 && c1 ≤ '5') && (pyDigitVal c2).isSome then
          Option.some (10 * digitVal c1 + (pyDigitVal c2).getD 0, rest2)
        else
          match pyDigitVal c1 with
          | Option.some v => Option.some (v, rest1)
          | Option.none => Option.none
    | [] =>
        match pyDigitVal c1 with
        | Option.some v => Option.some (v, [])
        | Option.none => Option.none

/-- Match one literal character (the caseless separators `-` and `:`). -/
def expectChar (c : Char) : List Char → Option (List Char)
  | x :: rest => if x = c then Option.some rest else Option.none
  | [] => Option.none

/-- Match a letter literal of the format case-insensitively: `_strptime`
compiles the format regex with `re.IGNORECASE`, under which the literal
`T` matches exactly T or t and the literal `Z` exactly Z or z (no other
code point case-folds onto them). -/
def expectCharCI (lower upper : Char) : List Char → Option (List Char)
  | x :: rest =>
      if x = lower || x = upper then Option.some rest else Option.none
  | [] => Option.none

/-- Gregorian leap year. -/
def isLeapYear (y : Nat) : Bool :=
  y % 4 = 0 && (y % 100 ≠ 0 || y % 400 = 0)

/-- Number of days in a month (used by the `datetime` constructor's
day-of-month validation). -/
def daysInMonth (y m : Nat) : Nat :=
  if m = 2 then (if isLeapYear y then 29 else 28)
  else if m = 4 || m = 6 || m = 9 || m = 11 then 30
  else 31

/-- Day ordinal of a civil date (standard days-from-civil algorithm; the
epoch offset is irrelevant, only differences and equality of ordinals are
used).  Requires `1 ≤ y`, which the caller guards. -/
def civilToDays (y m d : Nat) : Int :=
  let yi : Int := if m ≤ 2 then (y : Int) - 1 else (y : Int)
  let era : Int := yi / 400
  let yoe : Int := yi - era * 400
  let mp : Int := if 2 < m then (m : Int) - 3 else (m : Int) + 9
  let doy : Int := (153 * mp + 2) / 5 + (d : Int) - 1
  let doe : Int := yoe * 365 + yoe / 4 - yoe / 100 + doy
  era * 146097 + doe - 719468

/-- `datetime.strptime(s, "%Y-%m-%dT%H:%M:%SZ").date()` as a day ordinal:
match the whole string against the format's regex — compiled by
`_strptime` with `re.IGNORECASE`, so the `T` and `Z` literals also match
their lowercase forms, and with `\d` standing for any Unicode decimal
digit while the fragments' bracketed classes and digit literals are ASCII
— then apply the `datetime` constructor's range checks (year at least
`MINYEAR = 1`, day valid for the month, seconds below 60), and truncate
to the date. -/
def parseTimestampDate (s : String) : Option Int := do
  let (y, r1) ← parseYear4 s.toList
  let r2 ← expectChar '-' r1
  let (mo, r3) ← parseMonth r2
  let r4 ← expectChar '-' r3
  let (d, r5) ← parseDay r4
  let r6 ← expectCharCI 't' 'T' r5
  let (_, r7) ← parseHour r6
  let r8 ← expectChar ':' r7
  let (_, r9) ← parseMinute r8
  let r10 ← expectChar ':' r9
  let (sec, r11) ← parseSecond r10
  let r12 ← expectCharCI 'z' 'Z' r11
  guard (r12 = [])
  guard (1 ≤ y)
  guard (d ≤ daysInMonth y mo)
  guard (sec ≤ 59)
  pure (civilToDays y mo d)

/-- The per-character transform Python `float(str)` applies first
(`PyUnicode_TransformDecimalAndSpaceToASCII`): any Unicode decimal digit
becomes the ASCII digit of its value, any `str.isspace()` character
becomes an ASCII space, other ASCII characters pass through, and any
other character makes the conversion fail. -/
def pyTransformChar (c : Char) : Option Char :=
  match pyDigitVal c with
  | Option.some v => Option.some (Char.ofNat (48 + v))
  | Option.none =>
      if isPyUnicodeSpace c then Option.some ' '
      else if c.toNat < 128 then Option.some c
      else Option.none

/-- The `float(str)` transform over a whole string. -/
def pyTransform : List Char → Option (List Char)
  | [] => Option.some []
  | c :: rest =>
      match pyTransformChar c, pyTransform rest with
      | Option.some c', Option.some rest' => Option.some (c' :: rest')
      | _, _ => Option.none

/-- Python's numeric-literal underscore rule, as `float(str)` validates it
before stripping the underscores: every underscore must be immediately
preceded and followed by an (already transformed, hence ASCII) digit. -/
def underscoresValidAux : Option Char → List Char → Bool
  | _, [] => true
  | prev, c :: rest =>
      if c = '_' then
        (match prev with
         | Option.some p => p.isDigit
         | Option.none => false) &&
        (match rest with
         | r :: _ => r.isDigit
         | [] => false) &&
        underscoresValidAux (Option.some c) rest
      else underscoresValidAux (Option.some c) rest

/-- Value of a digit run. -/
def digitsVal (l : List Char) : Nat :=
  l.foldl (fun a c => 10 * a + digitVal c) 0

/-- Optional exponent suffix of a Python float literal, applied to the
already-parsed mantissa; fails on trailing garbage. -/
def parseExpSuffix (cs : List Char) (base : ℚ) : Option ℚ :=
  match cs with
  | [] => Option.some base
  | e :: r =>
      if e = 'e' || e = 'E' then
        let (esgn, r1) : Int × List Char :=
          match r with
          | '+' :: rr => (1, rr)
          | '-' :: rr => (-1, rr)
          | _ => (1, r)
        let ed := r1.takeWhile Char.isDigit
        if ed.isEmpty || !(r1.dropWhile Char.isDigit).isEmpty then Option.none
        else Option.some (base * (10 : ℚ) ^ (esgn * (digitsVal ed : Int)))
      else Option.none

/-- Python `float(s)` on a string: apply the decimal-and-space transform,
validate and strip underscore separators, strip surrounding whitespace,
then parse an optional sign, digits with an optional fractional part and
an optional exponent.  (`inf`/`nan`/`infinity`, which real Python also
accepts, are not representable in `ℚ` and yield `none`.) -/
def parsePyFloat (s : String) : Option ℚ :=
  match pyTransform s.toList with
  | Option.none => Option.none
  | Option.some cs0 =>
    if underscoresValidAux Option.none cs0 then
      let cs1 := cs0.filter (fun c => c ≠ '_')
      let cs := ((cs1.dropWhile (fun c => c = ' ')).reverse.dropWhile
        (fun c => c = ' ')).reverse
      let (sgn, csb) : ℚ × List Char :=
        match cs with
        | '+' :: r => (1, r)
        | '-' :: r => (-1, r)
        | _ => (1, cs)
      let ip := csb.takeWhile Char.isDigit
      let cs2 := csb.dropWhile Char.isDigit
      match cs2 with
      | '.' :: r =>
          let fp := r.takeWhile Char.isDigit
          let cs3 := r.dropWhile Char.isDigit
          if ip.isEmpty && fp.isEmpty then Option.none
          else
            parseExpSuffix cs3
              (sgn * ((digitsVal ip : ℚ) +
                (digitsVal fp : ℚ) / (10 : ℚ) ^ fp.length))
      | _ =>
          if ip.isEmpty then Option.none
          else parseExpSuffix cs2 (sgn * (digitsVal ip : ℚ))
    else Option.none

/-- Python `float(value)` on a field value: numbers pass through, strings
are parsed as float literals, `None` (never reached: the value was already
checked truthy) raises. -/
def pyFloat : PyVal → Option ℚ
  | PyVal.num q => Option.some q
  | PyVal.str s => parsePyFloat s
  | PyVal.none => Option.none

/-- Error raised inside `calculate_by_date`: in Python both sites raise
`ValueError`; the spec taxonomy names the `strptime` site `FormatError`,
and the `float(value)` conversion site is kept apart as `convError`. -/
inductive CalcError where
  | formatError
  | convError
deriving DecidableEq

/-- `1 if field_name is None else item["fields"].get(field_name, 0)`. -/
def contribVal (field_name : Option String) (item : ProcItem) : PyVal :=
  match field_name with
  | Option.none => PyVal.num 1
  | Option.some f => (dictGet item.fields f).getD (PyVal.num 0)

/-- The guard `value and item["state"] == "CLOSED" and item["closed_at"]`. -/
def contributesB (field_name : Option String) (item : ProcItem) : Bool :=
  pyTruthy (contribVal field_name item) && (item.state == "CLOSED") &&
    optStrTruthy item.closed_at

/-- `closed_per_day.get(closed_date, 0)` with values summed as numbers. -/
def bucketGet (b : List (Int × ℚ)) (d : Int) : ℚ :=
  (dictGet b d).getD 0

/-- `closed_per_day[d] = closed_per_day.get(d, 0) + v`. -/
def bucketAdd (b : List (Int × ℚ)) (d : Int) (v : ℚ) : List (Int × ℚ) :=
  dictSet b d (bucketGet b d + v)

/-- The `for item in items` loop of `calculate_by_date`: for each item
passing the guard, parse the closure timestamp (ValueError on mismatch,
modelled as `formatError`), then add `float(value)` (ValueError on a
non-numeric string, modelled as `convError`) into the bucket. -/
def calcLoop (field_name : Option String) :
    List ProcItem → List (Int × ℚ) → Except CalcError (List (Int × ℚ))
  | [], acc => Except.ok acc
  | item :: rest, acc =>
    if contributesB field_name item then
      match parseTimestampDate (item.closed_at.getD "") with
      | Option.none => Except.error CalcError.formatError
      | Option.some d =>
        match pyFloat (contribVal field_name item) with
        | Option.none => Except.error CalcError.convError
        | Option.some q => calcLoop field_name rest (bucketAdd acc d q)
    else calcLoop field_name rest acc

/-- `calculate_by_date(items, field_name)`. -/
def calculate_by_date (items : List ProcItem) (field_name : Option String) :
    Except CalcError (List (Int × ℚ)) :=
  calcLoop field_name items []

/-- `[start_date + timedelta(days=i) for i in range((end_date - start_date).days + 1)]`
with dates as day ordinals (`range` of a non-positive count is empty,
matching `Int.toNat`). -/
def date_range (start_date end_date : Int) : List Int :=
  (List.range (end_date - start_date + 1).toNat).map
    (fun (i : Nat) => start_date + (i : Int))

/-- The `for current_date in date_range` loop building `actual_burndown`:
subtract the day's bucketed value from the running remainder and record
the post-subtraction remainder. -/
def actualLoop (closed_per_day : List (Int × ℚ)) (remaining : ℚ) :
    List Int → List ℚ
  | [] => []
  | d :: rest =>
      (remaining - bucketGet closed_per_day d) ::
        actualLoop closed_per_day (remaining - bucketGet closed_per_day d) rest

/-- The data plotted by `generate_burndown_chart`: the enumerated date
range and the ideal and actual trajectories. -/
structure BurndownSeries where
  dates : List Int
  ideal : List ℚ
  actual : List ℚ
deriving DecidableEq

/-- The computational core of `generate_burndown_chart(closed_per_day,
start_date, end_date, total_value, ...)`: the date range,
`[total_value - (total_value / len(date_range)) * i for i in range(len(date_range))]`,
and the actual-burndown loop.  The matplotlib rendering, the file write
and the display parameters (`ylabel`, `filename`, `color`) are side
effects outside the embedding and do not influence these values. -/
def generate_burndown_chart (closed_per_day : List (Int × ℚ))
    (start_date end_date : Int) (total_value : ℚ) : BurndownSeries :=
  let dr := date_range start_date end_date
  { dates := dr
    ideal := (List.range dr.length).map
      (fun (i : Nat) => total_value - (total_value / (dr.length : ℚ)) * (i : ℚ))
    actual := actualLoop closed_per_day total_value dr }

/-- `pageInfo` of an item page. -/
structure PageInfo where
  hasNextPage : Bool
  endCursor : Option String
deriving DecidableEq

/-- `{"nodes": [...], "pageInfo": {...}}` of a project's `items`. -/
structure ProjectItems where
  nodes : List RawItem
  pageInfo : PageInfo
deriving DecidableEq

/-- One node of `data.organization.projectsV2.nodes`. -/
structure Project where
  title : String
  items : ProjectItems
deriving DecidableEq

/-- The payload under the `"data"` key (navigation through
`organization.projectsV2.nodes` is the fixed happy-path shape). -/
structure RespData where
  projects : List Project
deriving DecidableEq

/-- A parsed response of the GraphQL endpoint: an optional top-level
`"errors"` key and an optional `"data"` key. -/
structure Response where
  errors : Option (List String)
  data : Option RespData
deriving DecidableEq

/-- Errors raised by `fetch_project_items`.  Python raises `RuntimeError`
at the errors check and `ValueError` at the other two sites; the spec
taxonomy names them ProtocolError, SchemaError and NotFoundError.
`outOfFuel` is a model artifact standing for a pagination chain longer
than the recursion budget (the Python `while True` loop has none). -/
inductive FetchError where
  | protocolError
  | schemaError
  | notFoundError
  | outOfFuel
deriving DecidableEq

/-- One iteration body of the `while True` loop: check `"errors" in data`,
then `"data" not in data`, then locate the project whose title equals
`project_title` (first match, like `next(...)`), and return its item
nodes and page info. -/
def processPage (project_title : String) (resp : Response) :
    Except FetchError (List RawItem × PageInfo) :=
  if resp.errors.isSome then Except.error FetchError.protocolError
  else
    match resp.data with
    | Option.none => Except.error FetchError.schemaError
    | Option.some d =>
      match d.projects.find? (fun p => p.title == project_title) with
      | Option.none => Except.error FetchError.notFoundError
      | Option.some p => Except.ok (p.items.nodes, p.items.pageInfo)

/-- The `while True` loop of `fetch_project_items`, with the endpoint
modelled as a function from the pagination cursor to a response: extend
the accumulator with the page's nodes, stop when `hasNextPage` is false,
otherwise thread `endCursor` into the next request. -/
def fetchGo (post : Option String → Response) (project_title : String) :
    Nat → Option String → List RawItem → Except FetchError (List RawItem)
  | 0, _, _ => Except.error FetchError.outOfFuel
  | fuel + 1, cursor, acc =>
    match processPage project_title (post cursor) with
    | Except.error e => Except.error e
    | Except.ok (nodes, pi) =>
      if pi.hasNextPage then fetchGo post project_title fuel pi.endCursor (acc ++ nodes)
      else Except.ok (acc ++ nodes)

/-- `fetch_project_items(org, project_title)`: start with cursor `None`
and an empty accumulator.  The `org` argument only selects the endpoint's
organization and is absorbed into `post`. -/
def fetch_project_items (post : Option String → Response)
    (project_title : String) (fuel : Nat) : Except FetchError (List RawItem) :=
  fetchGo post project_title fuel Option.none []

/-- A run of server pages reachable from a cursor: each page has no
top-level errors, carries the data envelope, its node set contains a
project matching the requested title (the first such project is the one
used), and each non-final page reports a next page whose end cursor leads
to the rest of the run. -/
inductive PageChain (post : Option String → Response) (title : String) :
    Option String → List (List RawItem) → Prop
  | last {c : Option String} {d : RespData} {p : Project} :
      (post c).errors = Option.none →
      (post c).data = Option.some d →
      d.projects.find? (fun q => q.title == title) = Option.some p →
      p.items.pageInfo.hasNextPage = false →
      PageChain post title c [p.items.nodes]
  | step {c : Option String} {d : RespData} {p : Project}
      {rest : List (List RawItem)} :
      (post c).errors = Option.none →
      (post c).data = Option.some d →
      d.projects.find? (fun q => q.title == title) = Option.some p →
      p.items.pageInfo.hasNextPage = true →
      PageChain post title p.items.pageInfo.endCursor rest →
      PageChain post title c (p.items.nodes :: rest)

/-- Value of a field as the amended claim words it: the `"text"` value
when present and non-empty, otherwise the `"number"` value when present,
otherwise `None`.  Stated from the amended spec wording, to be compared
with the source's `field.get("text") or field.get("number")`. -/
def fieldValueSpec (fv : RawFieldValue) : PyVal :=
  match fv.text with
  | Option.some t =>
      if t = "" then
        match fv.number with
        | Option.some q => PyVal.num q
        | Option.none => PyVal.none
      else PyVal.str t
  | Option.none =>
      match fv.number with
      | Option.some q => PyVal.num q
      | Option.none => PyVal.none

/-- Fixture: a raw item of an example first page. -/
def itemA : RawItem :=
  ⟨[], ⟨Option.some "a", Option.some "OPEN", Option.none⟩⟩

/-- Fixture: a raw item of an example second page. -/
def itemB : RawItem :=
  ⟨[], ⟨Option.some "b", Option.some "CLOSED",
    Option.some "2025-01-13T00:00:00Z"⟩⟩

/-- Fixture: the project node on the example first page. -/
def projP1 : Project := ⟨"P", ⟨[itemA], ⟨true, Option.some "cursor-1"⟩⟩⟩

/-- Fixture: the project node on the example second page. -/
def projP2 : Project := ⟨"P", ⟨[itemB], ⟨false, Option.none⟩⟩⟩

/-- Fixture: an example endpoint serving two pages, the second reachable
only through the cursor returned by the first. -/
def postW : Option String → Response := fun c =>
  match c with
  | Option.none => ⟨Option.none, Option.some ⟨[projP1]⟩⟩
  | Option.some _ => ⟨Option.none, Option.some ⟨[projP2]⟩⟩

theorem dictGet_mem {α β : Type} [DecidableEq α] (l : List (α × β))
    (k : α) (v : β) (h : dictGet l k = Option.some v) : (k, v) ∈ l := by
  induction l with
  | nil => simp [dictGet] at h
  | cons hd tl ih =>
      obtain ⟨k0, v0⟩ := hd
      by_cases h0 : k = k0
      · subst h0
        simp [dictGet] at h
        simp [h]
      · simp [dictGet, h0] at h
        exact List.mem_cons_of_mem _ (ih h)

theorem processItemsLoop_eq (items : List RawItem) :
    ∀ acc : List ProcItem,
      processItemsLoop items acc = acc ++ items.map processOne := by
  induction items with
  | nil => intro acc; simp [processItemsLoop]
  | cons it rest ih => intro acc; simp [processItemsLoop, ih]

/-- Claim C4: `process_items` returns one normalized record per input
item, in the same order and with the same length; no item is dropped
regardless of malformed field data (the inner loop only ever skips a
field entry, never an item). -/
theorem process_items_length_and_order (items : List RawItem)
    (milestone_name : String) :
    (process_items items milestone_name).length = items.length ∧
      process_items items milestone_name = items.map processOne := by
  have h := processItemsLoop_eq items []
  refine ⟨?_, ?_⟩ <;> simp [process_items, h]

/-- Claim C10: the `milestone_name` argument of `process_items` never
occurs in its body, so any two values of it give identical output. -/
theorem process_items_ignores_milestone (items : List RawItem)
    (m1 m2 : String) : process_items items m1 = process_items items m2 := rfl

/-- Claim C5 (counterexample): a field-value entry carrying metadata with
both `"text"` and `"number"` present, where the text is the empty string,
ends up mapped to its number, not its text — Python's
`field.get("text") or field.get("number")` falls through on a falsy text,
so the claim "if both are present, the text value wins" fails here. -/
theorem text_precedence_counterexample :
    process_items
        [⟨[⟨Option.some (FieldMeta.withName "F"), Option.some "", Option.some 5⟩],
          ⟨Option.none, Option.none, Option.none⟩⟩] "Sprint 4"
      = [⟨"No Title", "Unknown", Option.none, [("F", PyVal.num 5)]⟩] ∧
    PyVal.num 5 ≠ PyVal.str "" :=
  ⟨rfl, by decide⟩

/-- Claim C5 (amended): for a field-value entry carrying identifying
metadata, the value bound in the fields mapping is the `"text"` value when
present and non-empty, otherwise the `"number"` value when present,
otherwise `None`; in particular a non-empty text wins over a number. -/
theorem processed_field_value_amended (fields : List (String × PyVal))
    (fv : RawFieldValue) (n : String)
    (h : fv.field = Option.some (FieldMeta.withName n)) :
    fieldStep fields fv = dictSet fields n (fieldValueSpec fv) := by
  have hv : pyOr (optStrVal fv.text) (optNumVal fv.number) = fieldValueSpec fv := by
    cases htext : fv.text with
    | none =>
        cases hnum : fv.number <;>
          simp [pyOr, pyTruthy, optStrVal, optNumVal, fieldValueSpec, htext, hnum]
    | some t =>
        by_cases ht : t = "" <;> cases hnum : fv.number <;>
          simp [pyOr, pyTruthy, optStrVal, optNumVal, fieldValueSpec, htext, hnum, ht]
  simp [fieldStep, h, hv]

theorem contributesB_iff (field_name : Option String) (item : ProcItem) :
    contributesB field_name item = true ↔
      pyTruthy (contribVal field_name item) = true ∧
        item.state = "CLOSED" ∧ optStrTruthy item.closed_at = true := by
  simp [contributesB, Bool.and_eq_true, and_assoc]

theorem actualLoop_length (b : List (Int × ℚ)) (dr : List Int) :
    ∀ r : ℚ, (actualLoop b r dr).length = dr.length := by
  induction dr with
  | nil => intro r; rfl
  | cons d rest ih => intro r; simp [actualLoop, ih]

theorem actualLoop_getElem (b : List (Int × ℚ)) (dr : List Int) :
    ∀ (r : ℚ) (i : Nat), i < dr.length →
      (actualLoop b r dr)[i]? =
        Option.some (r - ((dr.take (i + 1)).map (bucketGet b)).sum) := by
  induction dr with
  | nil => intro r i hi; simp at hi
  | cons d rest ih =>
      intro r i hi
      cases i with
      | zero => simp [actualLoop]
      | succ j =>
          have hj : j < rest.length := by simpa using hi
          simp only [actualLoop, List.getElem?_cons_succ]
          rw [ih (r - bucketGet b d) j hj, List.take_succ_cons,
            List.map_cons, List.sum_cons, sub_sub]

theorem actualLoop_nil_bucket (dr : List Int) :
    ∀ r : ℚ, actualLoop [] r dr = dr.map (fun _ => r) := by
  induction dr with
  | nil => intro r; rfl
  | cons d rest ih => intro r; simp [actualLoop, bucketGet, dictGet, ih]

theorem date_range_length (s e : Int) :
    (date_range s e).length = (e - s + 1).toNat := by
  unfold date_range
  rw [List.length_map, List.length_range]

theorem date_range_getElem (s e : Int) (i : Nat)
    (hi : i < (date_range s e).length) :
    (date_range s e)[i]? = Option.some (s + (i : Int)) := by
  have hi' : i < (e - s + 1).toNat := by rwa [date_range_length] at hi
  unfold date_range
  rw [List.getElem?_map, List.getElem?_range hi']
  rfl

theorem sum_take_mono (l : List ℚ) (h : ∀ x ∈ l, 0 ≤ x) (m n : Nat)
    (hmn : m ≤ n) : (l.take m).sum ≤ (l.take n).sum := by
  have hmem : ∀ x ∈ (l.take n).drop m, 0 ≤ x := by
    intro x hx
    exact h x (List.take_subset n l (List.drop_subset m (l.take n) hx))
  have hnn : 0 ≤ ((l.take n).drop m).sum := List.sum_nonneg hmem
  have hsplit : (l.take n).sum = (l.take m).sum + ((l.take n).drop m).sum := by
    conv_lhs => rw [← List.take_append_drop m (l.take n)]
    rw [List.sum_append, List.take_take, min_eq_left hmn]
  rw [hsplit]
  exact le_add_of_nonneg_right hnn

theorem bucketGet_nonneg (b : List (Int × ℚ)) (hb : ∀ p ∈ b, 0 ≤ p.2)
    (d : Int) : 0 ≤ bucketGet b d := by
  unfold bucketGet
  cases hg : dictGet b d with
  | none => simp
  | some v => simpa using hb (d, v) (dictGet_mem b d v hg)

theorem calcLoop_no_closed (field_name : Option String) :
    ∀ items : List ProcItem, (∀ it ∈ items, it.state ≠ "CLOSED") →
      ∀ acc, calcLoop field_name items acc = Except.ok acc := by
  intro items
  induction items with
  | nil => intro _ acc; rfl
  | cons item rest ih =>
      intro h acc
      have hc : contributesB field_name item = false := by
        rcases Bool.eq_false_or_eq_true (contributesB field_name item) with ht | hf
        · exact absurd ((contributesB_iff _ _).mp ht).2.1
            (h item (List.mem_cons_self item rest))
        · exact hf
      unfold calcLoop
      rw [if_neg (by simp [hc])]
      exact ih (fun it hm => h it (List.mem_cons_of_mem _ hm)) acc

/-- Claim C3: for a range of N enumerated days and a starting total T, the
ideal trajectory satisfies ideal[i] = T - (T/N)*i for every i below N, so
its final point ideal[N-1] equals T/N rather than 0. -/
theorem burndown_ideal_spec (closed_per_day : List (Int × ℚ)) (s e : Int)
    (total : ℚ) (h : s ≤ e) :
    (∀ i : Nat, i < (date_range s e).length →
      (generate_burndown_chart closed_per_day s e total).ideal[i]? =
        Option.some
          (total - (total / ((date_range s e).length : ℚ)) * (i : ℚ))) ∧
    (generate_burndown_chart closed_per_day s e
        total).ideal[(date_range s e).length - 1]? =
      Option.some (total / ((date_range s e).length : ℚ)) := by
  have hn : 1 ≤ (date_range s e).length := by
    rw [date_range_length]; omega
  have hgen : ∀ i : Nat, i < (date_range s e).length →
      (generate_burndown_chart closed_per_day s e total).ideal[i]? =
        Option.some
          (total - (total / ((date_range s e).length : ℚ)) * (i : ℚ)) := by
    intro i hi
    rw [show (generate_burndown_chart closed_per_day s e total).ideal =
      (List.range (date_range s e).length).map
        (fun (i : Nat) =>
          total - (total / ((date_range s e).length : ℚ)) * (i : ℚ))
      from rfl]
    rw [List.getElem?_map, List.getElem?_range hi]
    rfl
  refine ⟨hgen, ?_⟩
  rw [hgen ((date_range s e).length - 1) (by omega)]
  congr 1
  have hne : (((date_range s e).length : ℚ)) ≠ 0 :=
    Nat.cast_ne_zero.mpr (by omega)
  rw [Nat.cast_sub hn]
  field_simp
  ring

theorem burndown_ideal_spec_witness :
    (generate_burndown_chart [] 0 2 6).ideal[2]? = Option.some 2 := by
  have h := (burndown_ideal_spec [] 0 2 6 (by decide)).2
  have hl : (date_range 0 2).length = 3 := by decide
  rw [hl] at h
  norm_num at h
  exact h

/-- Claim C2: the actual trajectory has one entry per enumerated day, the
days ascend from the start date in unit steps, each entry is the running
remainder total minus the sum of the bucketed values of the days up to and
including it (0 for absent dates, no clamping); on the bucket
{2025-01-13: 2, 2025-01-15: 1} with total 5 over 2025-01-12..2025-01-14
the actual trajectory is [5, 3, 3], the out-of-range bucketed date
2025-01-15 not affecting it. -/
theorem burndown_actual_spec :
    (∀ (b : List (Int × ℚ)) (s e : Int) (total : ℚ),
      (generate_burndown_chart b s e total).actual.length =
        (generate_burndown_chart b s e total).dates.length ∧
      (∀ i : Nat, i < (date_range s e).length →
        (generate_burndown_chart b s e total).dates[i]? =
          Option.some (s + (i : Int)) ∧
        (generate_burndown_chart b s e total).actual[i]? =
          Option.some
            (total - (((date_range s e).take (i + 1)).map (bucketGet b)).sum))) ∧
    (generate_burndown_chart
        [(civilToDays 2025 1 13, 2), (civilToDays 2025 1 15, 1)]
        (civilToDays 2025 1 12) (civilToDays 2025 1 14) 5).actual
      = [5, 3, 3] := by
  constructor
  · intro b s e total
    have hact : (generate_burndown_chart b s e total).actual =
        actualLoop b total (date_range s e) := rfl
    have hdates : (generate_burndown_chart b s e total).dates =
        date_range s e := rfl
    constructor
    · rw [hact, hdates]
      exact actualLoop_length b (date_range s e) total
    · intro i hi
      constructor
      · rw [hdates]
        exact date_range_getElem s e i hi
      · rw [hact]
        exact actualLoop_getElem b (date_range s e) total i hi
  · have h13 : civilToDays 2025 1 13 = 20101 := by decide
    have h15 : civilToDays 2025 1 15 = 20103 := by decide
    have h12 : civilToDays 2025 1 12 = 20100 := by decide
    have h14 : civilToDays 2025 1 14 = 20102 := by decide
    rw [h13, h15, h12, h14]
    norm_num [generate_burndown_chart, date_range, actualLoop, bucketGet,
      dictGet, List.range_succ]

theorem burndown_actual_spec_witness :
    (generate_burndown_chart [(civilToDays 2025 1 13, 2)] 0 1 4).actual[0]? =
      Option.some
        (4 - (((date_range 0 1).take 1).map
          (bucketGet [(civilToDays 2025 1 13, 2)])).sum) :=
  ((burndown_actual_spec.1 [(civilToDays 2025 1 13, 2)] 0 1 4).2 0
    (by decide)).2

/-- Claim C9: with only non-negative bucketed values the actual trajectory
is monotonically non-increasing; `calculate_by_date` returns an empty
bucket for a sequence with no closed items; and with an empty bucket the
actual trajectory is a flat line at the starting total on every
enumerated date. -/
theorem burndown_monotone_and_flat :
    (∀ (b : List (Int × ℚ)) (s e : Int) (total : ℚ),
      (∀ p ∈ b, 0 ≤ p.2) →
      ∀ i j : Nat, i ≤ j → j < (date_range s e).length →
        ∀ vi vj : ℚ,
          (generate_burndown_chart b s e total).actual[i]? = Option.some vi →
          (generate_burndown_chart b s e total).actual[j]? = Option.some vj →
          vj ≤ vi) ∧
    (∀ (items : List ProcItem) (field_name : Option String),
      (∀ it ∈ items, it.state ≠ "CLOSED") →
      calculate_by_date items field_name = Except.ok []) ∧
    (∀ (s e : Int) (total : ℚ) (i : Nat), i < (date_range s e).length →
      (generate_burndown_chart [] s e total).actual[i]? = Option.some total) := by
  refine ⟨?_, ?_, ?_⟩
  · intro b s e total hb i j hij hj vi vj hvi hvj
    have hi : i < (date_range s e).length := lt_of_le_of_lt hij hj
    have hvi' := actualLoop_getElem b (date_range s e) total i hi
    have hvj' := actualLoop_getElem b (date_range s e) total j hj
    rw [show (generate_burndown_chart b s e total).actual =
      actualLoop b total (date_range s e) from rfl] at hvi hvj
    rw [hvi'] at hvi
    rw [hvj'] at hvj
    have hvi2 : vi = total -
        (((date_range s e).take (i + 1)).map (bucketGet b)).sum :=
      (Option.some.injEq _ _ ▸ hvi).symm
    have hvj2 : vj = total -
        (((date_range s e).take (j + 1)).map (bucketGet b)).sum :=
      (Option.some.injEq _ _ ▸ hvj).symm
    rw [hvi2, hvj2]
    have hnn : ∀ x ∈ (date_range s e).map (bucketGet b), 0 ≤ x := by
      intro x hx
      obtain ⟨d, _, hd⟩ := List.mem_map.mp hx
      rw [← hd]
      exact bucketGet_nonneg b hb d
    have hmono := sum_take_mono ((date_range s e).map (bucketGet b)) hnn
      (i + 1) (j + 1) (by omega)
    rw [List.map_take, List.map_take]
    exact sub_le_sub_left hmono total
  · intro items field_name h
    exact calcLoop_no_closed field_name items h []
  · intro s e total i hi
    have h1 : (generate_burndown_chart [] s e total).actual =
        (date_range s e).map (fun _ => total) := by
      rw [show (generate_burndown_chart [] s e total).actual =
        actualLoop [] total (date_range s e) from rfl]
      exact actualLoop_nil_bucket (date_range s e) total
    rw [h1, List.getElem?_map, List.getElem?_eq_getElem hi]
    rfl

theorem burndown_monotone_and_flat_witness :
    calculate_by_date [⟨"t", "OPEN", Option.none, []⟩] Option.none
        = Except.ok [] ∧
    (generate_burndown_chart [] 0 2 7).actual[1]? = Option.some 7 ∧
    (3 : ℚ) ≤ 5 := by
  refine ⟨?_, ?_, ?_⟩
  · exact burndown_monotone_and_flat.2.1 [⟨"t", "OPEN", Option.none, []⟩]
      Option.none (by decide)
  · exact burndown_monotone_and_flat.2.2 0 2 7 1 (by decide)
  · have h0 : (generate_burndown_chart [((1 : Int), (2 : ℚ))] 0 2 5).actual[0]? =
        Option.some 5 := by
      norm_num [generate_burndown_chart, date_range, actualLoop, bucketGet,
        dictGet, List.range_succ]
    have h2 : (generate_burndown_chart [((1 : Int), (2 : ℚ))] 0 2 5).actual[2]? =
        Option.some 3 := by
      norm_num [generate_burndown_chart, date_range, actualLoop, bucketGet,
        dictGet, List.range_succ]
    exact burndown_monotone_and_flat.1 [((1 : Int), (2 : ℚ))] 0 2 5
      (by norm_num) 0 2 (by omega) (by decide) 5 3 h0 h2

theorem processed_field_value_amended_witness :
    fieldStep [] ⟨Option.some (FieldMeta.withName "Estimate"),
        Option.none, Option.some 3⟩
      = [("Estimate", PyVal.num 3)] := by
  have h := processed_field_value_amended []
    ⟨Option.some (FieldMeta.withName "Estimate"), Option.none, Option.some 3⟩
    "Estimate" rfl
  simpa [dictSet, fieldValueSpec] using h

/-- Claim C7: for each page processed by the fetch loop, the checks happen
in order: any top-level query errors fail with the ProtocolError; with no
errors, an absent data envelope fails with the SchemaError; with no errors
and a data envelope, the absence of a project whose title matches the
request fails with the NotFoundError. -/
theorem fetch_error_order (post : Option String → Response) (title : String)
    (fuel : Nat) (c : Option String) (acc : List RawItem) :
    ((post c).errors.isSome = true →
      fetchGo post title (fuel + 1) c acc =
        Except.error FetchError.protocolError) ∧
    ((post c).errors = Option.none → (post c).data = Option.none →
      fetchGo post title (fuel + 1) c acc =
        Except.error FetchError.schemaError) ∧
    (∀ d : RespData, (post c).errors = Option.none →
      (post c).data = Option.some d →
      (∀ p ∈ d.projects, p.title ≠ title) →
      fetchGo post title (fuel + 1) c acc =
        Except.error FetchError.notFoundError) := by
  refine ⟨?_, ?_, ?_⟩
  · intro he
    have hpp : processPage title (post c) =
        Except.error FetchError.protocolError := by
      unfold processPage
      rw [if_pos he]
    unfold fetchGo
    rw [hpp]
  · intro he hd
    have hpp : processPage title (post c) =
        Except.error FetchError.schemaError := by
      unfold processPage
      rw [if_neg (by simp [he]), hd]
    unfold fetchGo
    rw [hpp]
  · intro d he hd hnone
    have hfind : d.projects.find? (fun p => p.title == title) = Option.none := by
      rw [List.find?_eq_none]
      intro p hp
      simp [hnone p hp]
    have hpp : processPage title (post c) =
        Except.error FetchError.notFoundError := by
      simp [processPage, he, hd, hfind]
    unfold fetchGo
    rw [hpp]

theorem fetch_error_order_witness :
    fetch_project_items
        (fun _ => (⟨Option.some ["boom"], Option.none⟩ : Response)) "P" 1
      = Except.error FetchError.protocolError :=
  (fetch_error_order
    (fun _ => (⟨Option.some ["boom"], Option.none⟩ : Response)) "P" 0
    Option.none []).1 rfl

theorem fetchGo_chain (post : Option String → Response) (title : String)
    (pages : List (List RawItem)) (c : Option String)
    (hc : PageChain post title c pages) :
    ∀ fuel : Nat, pages.length ≤ fuel →
      ∀ acc : List RawItem,
        fetchGo post title fuel c acc = Except.ok (acc ++ pages.join) := by
  induction hc with
  | @last c d p herr hdata hfind hnext =>
      intro fuel hf acc
      cases fuel with
      | zero => simp at hf
      | succ n =>
          have hpp : processPage title (post c) =
              Except.ok (p.items.nodes, p.items.pageInfo) := by
            simp [processPage, herr, hdata, hfind]
          unfold fetchGo
          rw [hpp]
          simp [hnext]
  | @step c d p rest herr hdata hfind hnext hchain ih =>
      intro fuel hf acc
      cases fuel with
      | zero => simp at hf
      | succ n =>
          have hpp : processPage title (post c) =
              Except.ok (p.items.nodes, p.items.pageInfo) := by
            simp [processPage, herr, hdata, hfind]
          have hlen : rest.length ≤ n := by
            simp only [List.length_cons] at hf
            omega
          unfold fetchGo
          rw [hpp]
          simp only [hnext, if_true]
          rw [ih n hlen (acc ++ p.items.nodes)]
          simp [List.join]

/-- Claim C8: over a run of pages each carrying a project whose title
exactly matches the request, with each page's end cursor threaded into
the next request and the run ending at the first page reporting no next
page, `fetch_project_items` returns the concatenation of that project's
item nodes in page order, preserving within-page order. -/
theorem fetch_pagination_concat (post : Option String → Response)
    (title : String) (pages : List (List RawItem)) (fuel : Nat)
    (hc : PageChain post title Option.none pages)
    (hf : pages.length ≤ fuel) :
    fetch_project_items post title fuel = Except.ok pages.join := by
  have h := fetchGo_chain post title pages Option.none hc fuel hf []
  simpa [fetch_project_items] using h

theorem fetch_pagination_concat_witness :
    fetch_project_items postW "P" 2 = Except.ok [itemA, itemB] := by
  have hchain : PageChain postW "P" Option.none [[itemA], [itemB]] :=
    @PageChain.step postW "P" Option.none ⟨[projP1]⟩ projP1 [[itemB]]
      rfl rfl rfl rfl
      (@PageChain.last postW "P" (Option.some "cursor-1") ⟨[projP2]⟩ projP2
        rfl rfl rfl rfl)
  have h := fetch_pagination_concat postW "P" [[itemA], [itemB]] 2 hchain
    (by decide)
  simpa using h
